import Mathlib

/-!
Verification of the netball score app's timer synchronization core.

Shallow embedding of:
* `TimerManager` / `TimerState` (src/lib/timer): the clock state machine;
* `GameStorage.calculateServerTime` (src/lib/gameStorage.ts): the legacy
  server-side expiry path over `Game` records;
* the tiered persistence loaders/savers, both the legacy loader in
  `gameStorage.ts` and the V2 `GameDataStorage`/`TimerDataStorage` in
  `GameStorageV2`;
* `TimerService.performAutomaticCleanup`: the registry eviction sweep.

Conventions: JavaScript `number` values are modelled as `ℚ`; `Date`
timestamps are `ℚ` milliseconds since the epoch (`Date.now()` values), so
`(now - startedAt) / 1000` converts to seconds exactly as in source.
`Math.round` is `jsRound` (half-up rounding); `Math.floor` is `Int.floor`.
Event emission to subscribers does not change machine state and is not
modelled; all claims here are about state.
-/

/-- JavaScript `Math.round`: round half-up to an integer. -/
def jsRound (q : ℚ) : ℚ :=
  (⌊q + 1/2⌋ : ℤ)

/-- The `status` field of `TimerState` (src/lib/timer/TimerState.ts):
`'scheduled' | 'live' | 'finished'`. -/
inductive GameStatus where
  | scheduled
  | live
  | finished
deriving DecidableEq, Repr

/-- `TimerConfig` from src/lib/timer/TimerState.ts. -/
structure TimerConfig where
  quarterLength : ℚ
  totalQuarters : ℕ
  gameId : String
deriving DecidableEq, Repr

/-- `TimerState` from src/lib/timer/TimerState.ts.  `startedAt`/`pausedAt`
are nullable `Date`s, hence `Option ℚ` (milliseconds). -/
structure TimerState where
  isRunning : Bool
  startedAt : Option ℚ
  pausedAt : Option ℚ
  totalPausedTime : ℚ
  quarterLength : ℚ
  currentQuarter : ℕ
  gameId : String
  status : GameStatus
deriving DecidableEq, Repr

/-- `Partial<TimerState>`: each field optionally present (a present
`startedAt` may itself be null, hence `Option (Option ℚ)`). -/
structure PartialTimerState where
  isRunning : Option Bool := none
  startedAt : Option (Option ℚ) := none
  pausedAt : Option (Option ℚ) := none
  totalPausedTime : Option ℚ := none
  quarterLength : Option ℚ := none
  currentQuarter : Option ℕ := none
  gameId : Option String := none
  status : Option GameStatus := none
deriving DecidableEq, Repr

namespace TimerManager

/-- The state built by the `TimerManager` constructor. -/
def initState (cfg : TimerConfig) : TimerState where
  isRunning := false
  startedAt := none
  pausedAt := none
  totalPausedTime := 0
  quarterLength := cfg.quarterLength
  currentQuarter := 1
  gameId := cfg.gameId
  status := .scheduled

/-- `TimerManager.getCurrentTime()`; `now` is the `Date.now()` value (ms). -/
def getCurrentTime (s : TimerState) (now : ℚ) : ℚ :=
  match s.isRunning, s.startedAt with
  | true, some startedAt =>
    let elapsedSinceStart := (now - startedAt) / 1000
    let totalElapsed := elapsedSinceStart + s.totalPausedTime
    let remaining := s.quarterLength - totalElapsed
    max 0 (jsRound (remaining * 10) / 10)
  | _, _ =>
    max 0 (s.quarterLength - s.totalPausedTime)

/-- `TimerManager.start()` at wall-clock instant `now` (ms). -/
def start (s : TimerState) (now : ℚ) : TimerState :=
  if s.isRunning then s
  else if s.quarterLength - s.totalPausedTime ≤ 0 then s
  else { s with isRunning := true, startedAt := some now, pausedAt := none,
                status := .live }

/-- `TimerManager.pause()` at wall-clock instant `now` (ms). -/
def pause (s : TimerState) (now : ℚ) : TimerState :=
  match s.isRunning, s.startedAt with
  | true, some startedAt =>
    { s with isRunning := false, pausedAt := some now,
             totalPausedTime := s.totalPausedTime + (now - startedAt) / 1000,
             startedAt := none, status := .scheduled }
  | _, _ => s

/-- `TimerManager.nextQuarter()`. -/
def nextQuarter (cfg : TimerConfig) (s : TimerState) : TimerState :=
  let nq := s.currentQuarter + 1
  let isFinished := cfg.totalQuarters < nq
  { s with currentQuarter := if isFinished then s.currentQuarter else nq,
           isRunning := false, startedAt := none, pausedAt := none,
           totalPausedTime := 0,
           status := if isFinished then .finished else .scheduled }

/-- `TimerManager.reset()`. -/
def reset (s : TimerState) : TimerState :=
  { s with isRunning := false, startedAt := none, pausedAt := none,
           totalPausedTime := 0, status := .scheduled }

/-- `TimerManager.syncWithState(externalState)`: shallow merge.  (The
changed-state check only gates event emission, not the resulting state.) -/
def syncWithState (s : TimerState) (p : PartialTimerState) : TimerState where
  isRunning := p.isRunning.getD s.isRunning
  startedAt := p.startedAt.getD s.startedAt
  pausedAt := p.pausedAt.getD s.pausedAt
  totalPausedTime := p.totalPausedTime.getD s.totalPausedTime
  quarterLength := p.quarterLength.getD s.quarterLength
  currentQuarter := p.currentQuarter.getD s.currentQuarter
  gameId := p.gameId.getD s.gameId
  status := p.status.getD s.status

/-- `TimerManager.isExpired()`. -/
def isExpired (s : TimerState) (now : ℚ) : Bool :=
  getCurrentTime s now ≤ 0

/-- `TimerManager.isGameFinished()`. -/
def isGameFinished (s : TimerState) : Bool :=
  s.status = GameStatus.finished

end TimerManager

/-- States reachable by command sequences with nondecreasing wall-clock
timestamps; the second component is the time of the latest command.
`syncWithState` is excluded: it can overwrite fields arbitrarily. -/
inductive Reachable (cfg : TimerConfig) : TimerState → ℚ → Prop where
  | init (t : ℚ) : Reachable cfg (TimerManager.initState cfg) t
  | step_start {s : TimerState} {t : ℚ} (t' : ℚ) :
      Reachable cfg s t → t ≤ t' → Reachable cfg (TimerManager.start s t') t'
  | step_pause {s : TimerState} {t : ℚ} (t' : ℚ) :
      Reachable cfg s t → t ≤ t' → Reachable cfg (TimerManager.pause s t') t'
  | step_next {s : TimerState} {t : ℚ} (t' : ℚ) :
      Reachable cfg s t → t ≤ t' → Reachable cfg (TimerManager.nextQuarter cfg s) t'
  | step_reset {s : TimerState} {t : ℚ} (t' : ℚ) :
      Reachable cfg s t → t ≤ t' → Reachable cfg (TimerManager.reset s) t'

/-- The `status` field of the legacy `Game` interface (src/types/game.ts):
`'scheduled' | 'live' | 'break' | 'finished'` (`break` is a Lean keyword,
rendered `breakTime`). -/
inductive GameStatusV1 where
  | scheduled
  | live
  | breakTime
  | finished
deriving DecidableEq, Repr

/-- The legacy `Game` record (src/types/game.ts).  `timerStartedAt` is an
optional `Date` (ms); `lastServerTime` an optional number. -/
structure Game where
  id : String
  teamA : String
  teamB : String
  scoreA : ℚ
  scoreB : ℚ
  currentQuarter : ℕ
  timeRemaining : ℚ
  quarterLength : ℚ
  status : GameStatusV1
  isRunning : Bool
  timerStartedAt : Option ℚ := none
  lastServerTime : Option ℚ := none
  createdAt : ℚ
  updatedAt : ℚ
deriving DecidableEq, Repr

namespace GameStorage

/-- `GameStorage.calculateServerTime` (src/lib/gameStorage.ts).  Returns the
recomputed record; in the expiry branch the source also persists the stopped
record immediately (persistence itself is modelled separately below). -/
def calculateServerTime (g : Game) (now : ℚ) : Game :=
  match g.isRunning, g.timerStartedAt, g.status with
  | true, some timerStartedAt, .live =>
    let elapsedSeconds : ℚ := (⌊(now - timerStartedAt) / 1000⌋ : ℤ)
    let newTimeRemaining := max 0 (g.timeRemaining - elapsedSeconds)
    if newTimeRemaining ≤ 0 then
      { g with timeRemaining := 0, lastServerTime := some 0, isRunning := false,
               status := .scheduled, timerStartedAt := none, updatedAt := now }
    else
      { g with timeRemaining := newTimeRemaining,
               lastServerTime := some newTimeRemaining, updatedAt := now }
  | _, _, _ => g

end GameStorage

/-- Result of attempting to read the durable file: the file may be absent,
the read/parse may throw, or it has contents. -/
inductive FileState (α : Type) where
  | missing
  | error
  | content (data : α)
deriving DecidableEq, Repr

/-- The persistence layer's process state: the global cache with its write
timestamp, the durable file, and whether the file system accepts writes. -/
structure StorageState (α : Type) where
  cache : Option (List α)
  cacheTimestamp : Option ℤ
  file : FileState (List α)
  writable : Bool
deriving DecidableEq, Repr

/-- `CACHE_TIMEOUT` (5 minutes, ms) — same value in gameStorage.ts and
GameStorageV2. -/
def CACHE_TIMEOUT : ℤ := 5 * 60 * 1000

namespace GameStorageV1

/-- Legacy `loadGamesFromStorage` (src/lib/gameStorage.ts): fresh global
cache, else file (repopulating the cache), else stale cache, else empty. -/
def loadGamesFromStorage {α : Type} (now : ℤ) (s : StorageState α) :
    List α × StorageState α :=
  let cacheFresh :=
    match s.cache, s.cacheTimestamp with
    | some cached, some ts => if now - ts < CACHE_TIMEOUT then some cached else none
    | _, _ => none
  match cacheFresh with
  | some cached => (cached, s)
  | none =>
    match s.file with
    | .content data =>
      (data, { s with cache := some data, cacheTimestamp := some now })
    | _ =>
      match s.cache with
      | some cached => (cached, s)
      | none => ([], s)

end GameStorageV1

namespace GameStorageV2

/-- `GameDataStorage.loadFromFile` (GameStorageV2): a missing file or a
caught read error both yield `[]`. -/
def loadFromFile {α : Type} (f : FileState (List α)) : List α :=
  match f with
  | .content data => data
  | _ => []

/-- The raw `fs.writeFileSync` call: fails when the file system rejects
writes. -/
def writeFileSync {α : Type} (s : StorageState α) (data : List α) :
    Except Unit (StorageState α) :=
  if s.writable then Except.ok { s with file := FileState.content data }
  else Except.error ()

/-- `GameDataStorage.saveToFile`: the write failure is caught and logged,
leaving the durable file as it was. -/
def saveToFile {α : Type} (s : StorageState α) (data : List α) : StorageState α :=
  match writeFileSync s data with
  | .ok s' => s'
  | .error _ => s

/-- `GameDataStorage.loadGamesFromStorage` (GameStorageV2): fresh cache,
else file contents (empty on error/missing), always overwriting the cache
in the file branch.  `TimerDataStorage.loadTimersFromStorage` has the same
shape. -/
def loadGamesFromStorage {α : Type} (now : ℤ) (s : StorageState α) :
    List α × StorageState α :=
  match s.cache, s.cacheTimestamp with
  | some cached, some ts =>
    if now - ts < CACHE_TIMEOUT then (cached, s)
    else
      let gameArray := loadFromFile s.file
      (gameArray, { s with cache := some gameArray, cacheTimestamp := some now })
  | _, _ =>
    let gameArray := loadFromFile s.file
    (gameArray, { s with cache := some gameArray, cacheTimestamp := some now })

/-- `GameDataStorage.saveGamesToStorage` (GameStorageV2): update the global
cache and its timestamp first, then attempt the durable write.
`TimerDataStorage.saveTimersToStorage` has the same shape. -/
def saveGamesToStorage {α : Type} (now : ℤ) (s : StorageState α)
    (games : List α) : StorageState α :=
  saveToFile { s with cache := some games, cacheTimestamp := some now } games

end GameStorageV2

namespace TimerService

/-- `TimerService.TIMER_TTL` (2 hours, ms). -/
def TIMER_TTL : ℤ := 2 * 60 * 60 * 1000

/-- `TimerService.MAX_TIMER_INSTANCES`. -/
def MAX_TIMER_INSTANCES : ℕ := 100

/-- The registry's two maps (`TimerService.timers`, `TimerService.lastAccessed`),
as association lists in insertion order; `τ` stands for the `TimerManager`
instances, which the sweep never inspects. -/
structure Registry (τ : Type) where
  timers : List (String × τ)
  lastAccessed : List (String × ℤ)

/-- Comparator used for `sort((a, b) => a[1] - b[1])`: by last-accessed time. -/
def accessLe (a b : String × ℤ) : Prop := a.2 ≤ b.2

instance : DecidableRel accessLe := fun a b => inferInstanceAs (Decidable (a.2 ≤ b.2))

instance : IsTotal (String × ℤ) accessLe := ⟨fun a b => le_total a.2 b.2⟩

instance : IsTrans (String × ℤ) accessLe := ⟨fun _ _ _ hab hbc => le_trans hab hbc⟩

/-- First phase of `performAutomaticCleanup`: the keys whose last access
is older than `TIMER_TTL` (`now - lastAccess > TIMER_TTL`). -/
def staleTimers {τ : Type} (now : ℤ) (r : Registry τ) : List String :=
  (r.lastAccessed.filter fun p => TIMER_TTL < now - p.2).map Prod.fst

/-- The registry after the TTL deletions of `performAutomaticCleanup`. -/
def afterTTL {τ : Type} (now : ℤ) (r : Registry τ) : Registry τ where
  timers := r.timers.filter fun p => !(staleTimers now r).contains p.1
  lastAccessed := r.lastAccessed.filter fun p => !(staleTimers now r).contains p.1

/-- Second phase: `sort((a, b) => a[1] - b[1])` over the remaining
`lastAccessed` entries and `slice` of the overshoot — the keys evicted to
enforce the cap.  (`Array.prototype.sort` is stable; modelled by insertion
sort.) -/
def capEvicted {τ : Type} (now : ℤ) (r : Registry τ) : List String :=
  ((List.insertionSort accessLe (afterTTL now r).lastAccessed).take
      ((afterTTL now r).timers.length - MAX_TIMER_INSTANCES)).map Prod.fst

/-- `TimerService.performAutomaticCleanup` at wall-clock `now` (ms): delete
entries whose last access is older than `TIMER_TTL`; then, if more than
`MAX_TIMER_INSTANCES` timers remain, delete the least-recently-accessed
entries of `lastAccessed` down to the cap. -/
def performAutomaticCleanup {τ : Type} (now : ℤ) (r : Registry τ) : Registry τ :=
  if MAX_TIMER_INSTANCES < (afterTTL now r).timers.length then
    { timers := (afterTTL now r).timers.filter fun p => !(capEvicted now r).contains p.1,
      lastAccessed :=
        (afterTTL now r).lastAccessed.filter fun p => !(capEvicted now r).contains p.1 }
  else
    afterTTL now r

end TimerService

/-- C1: when the timer is not running (isRunning=false or startedAt=null),
`getCurrentTime` returns `max 0 (quarterLength - totalPausedTime)`,
independent of the wall clock; when running it returns
`max 0 (round10 (quarterLength - totalPausedTime - elapsed))` at 0.1s
precision; Scenario A (quarterLength=60: start, +10s, pause ⇒ 50; start,
+5s, pause ⇒ 45), the accumulator holding accumulated running time. -/
theorem claim1_getCurrentTime_formula :
    (∀ (s : TimerState) (now : ℚ), s.isRunning = false ∨ s.startedAt = none →
      TimerManager.getCurrentTime s now = max 0 (s.quarterLength - s.totalPausedTime)) ∧
    (∀ (s : TimerState) (now now' : ℚ), s.isRunning = false ∨ s.startedAt = none →
      TimerManager.getCurrentTime s now = TimerManager.getCurrentTime s now') ∧
    (∀ (s : TimerState) (now u : ℚ), s.isRunning = true → s.startedAt = some u →
      TimerManager.getCurrentTime s now
        = max 0 (jsRound ((s.quarterLength - s.totalPausedTime - (now - u) / 1000) * 10) / 10)) ∧
    (TimerManager.pause (TimerManager.start (TimerManager.initState ⟨60, 4, "g"⟩) 0)
      10000).totalPausedTime = 10 ∧
    TimerManager.getCurrentTime
      (TimerManager.pause (TimerManager.start (TimerManager.initState ⟨60, 4, "g"⟩) 0) 10000)
      10000 = 50 ∧
    (TimerManager.pause (TimerManager.start (TimerManager.pause
      (TimerManager.start (TimerManager.initState ⟨60, 4, "g"⟩) 0) 10000) 10000)
      15000).totalPausedTime = 15 ∧
    TimerManager.getCurrentTime
      (TimerManager.pause (TimerManager.start (TimerManager.pause
        (TimerManager.start (TimerManager.initState ⟨60, 4, "g"⟩) 0) 10000) 10000) 15000)
      15000 = 45 := by
  refine ⟨?_, ?_, ?_, ?_, ?_, ?_, ?_⟩
  · intro s now h
    cases hb : s.isRunning <;> cases ha : s.startedAt <;>
      simp_all [TimerManager.getCurrentTime]
  · intro s now now' h
    cases hb : s.isRunning <;> cases ha : s.startedAt <;>
      simp_all [TimerManager.getCurrentTime]
  · intro s now u hb ha
    simp only [TimerManager.getCurrentTime, hb, ha]
    have harg : s.quarterLength - ((now - u) / 1000 + s.totalPausedTime)
        = s.quarterLength - s.totalPausedTime - (now - u) / 1000 := by ring
    rw [harg]
  · norm_num [TimerManager.pause, TimerManager.start, TimerManager.initState]
  · norm_num [TimerManager.pause, TimerManager.start, TimerManager.initState,
      TimerManager.getCurrentTime]
  · norm_num [TimerManager.pause, TimerManager.start, TimerManager.initState]
  · norm_num [TimerManager.pause, TimerManager.start, TimerManager.initState,
      TimerManager.getCurrentTime]

/-- Witness for C1 at concrete states. -/
theorem claim1_witness :
    TimerManager.getCurrentTime (TimerManager.initState ⟨60, 4, "g"⟩) 1234 = max 0 (60 - 0) ∧
    TimerManager.getCurrentTime (TimerManager.initState ⟨60, 4, "g"⟩) 5 =
      TimerManager.getCurrentTime (TimerManager.initState ⟨60, 4, "g"⟩) 99 ∧
    TimerManager.getCurrentTime (TimerManager.start (TimerManager.initState ⟨60, 4, "g"⟩) 0) 3000
      = max 0 (jsRound ((60 - 0 - ((3000 : ℚ) - 0) / 1000) * 10) / 10) :=
  by
  refine ⟨claim1_getCurrentTime_formula.1 _ 1234 (Or.inl rfl),
    claim1_getCurrentTime_formula.2.1 _ 5 99 (Or.inl rfl), ?_⟩
  have h := claim1_getCurrentTime_formula.2.2.1
    (TimerManager.start (TimerManager.initState ⟨60, 4, "g"⟩) 0) 3000 0
    (by norm_num [TimerManager.start, TimerManager.initState])
    (by norm_num [TimerManager.start, TimerManager.initState])
  norm_num [TimerManager.start, TimerManager.initState] at h ⊢
  exact h

/-- C7: `start`, `pause` and `reset` are idempotent on the machine state:
a second consecutive call (at any later instant) leaves the state of the
first call unchanged. -/
theorem claim7_idempotence :
    ∀ (s : TimerState) (t₁ t₂ : ℚ),
      TimerManager.start (TimerManager.start s t₁) t₂ = TimerManager.start s t₁ ∧
      TimerManager.pause (TimerManager.pause s t₁) t₂ = TimerManager.pause s t₁ ∧
      TimerManager.reset (TimerManager.reset s) = TimerManager.reset s := by
  intro s t₁ t₂
  refine ⟨?_, ?_, rfl⟩
  · by_cases hb : s.isRunning
    · simp [TimerManager.start, hb]
    · by_cases hq : s.quarterLength - s.totalPausedTime ≤ 0
      · simp [TimerManager.start, hb, hq]
      · simp [TimerManager.start, hb, hq]
  · cases hb : s.isRunning <;> cases ha : s.startedAt <;>
      simp_all [TimerManager.pause]

/-- C6: with `totalQuarters = 4`, `n ≥ 4` consecutive `nextQuarter` calls
from the initial state end `finished` in quarter 4; `nextQuarter` never
raises `currentQuarter` above `totalQuarters`, and always clears
`isRunning`, `startedAt` and the accumulated run time. -/
theorem claim6_nextQuarter_bound :
    (∀ (qL : ℚ) (id : String) (n : ℕ), 4 ≤ n →
      ((TimerManager.nextQuarter ⟨qL, 4, id⟩)^[n] (TimerManager.initState ⟨qL, 4, id⟩)).status
          = GameStatus.finished ∧
      ((TimerManager.nextQuarter ⟨qL, 4, id⟩)^[n]
          (TimerManager.initState ⟨qL, 4, id⟩)).currentQuarter = 4) ∧
    (∀ (cfg : TimerConfig) (s : TimerState),
      (TimerManager.nextQuarter cfg s).currentQuarter ≤
        max s.currentQuarter cfg.totalQuarters) ∧
    (∀ (cfg : TimerConfig) (s : TimerState), s.currentQuarter ≤ cfg.totalQuarters →
      (TimerManager.nextQuarter cfg s).currentQuarter ≤ cfg.totalQuarters) ∧
    (∀ (cfg : TimerConfig) (s : TimerState),
      (TimerManager.nextQuarter cfg s).isRunning = false ∧
      (TimerManager.nextQuarter cfg s).startedAt = none ∧
      (TimerManager.nextQuarter cfg s).totalPausedTime = 0) := by
  refine ⟨?_, ?_, ?_, ?_⟩
  · intro qL id n hn
    obtain ⟨k, rfl⟩ : ∃ k, n = k + 4 := ⟨n - 4, by omega⟩
    rw [Function.iterate_add_apply]
    have h4 : (TimerManager.nextQuarter ⟨qL, 4, id⟩)^[4] (TimerManager.initState ⟨qL, 4, id⟩)
        = { isRunning := false, startedAt := none, pausedAt := none, totalPausedTime := 0,
            quarterLength := qL, currentQuarter := 4, gameId := id,
            status := GameStatus.finished } := rfl
    rw [h4, Function.iterate_fixed rfl]
    exact ⟨rfl, rfl⟩
  · intro cfg s
    by_cases h : cfg.totalQuarters < s.currentQuarter + 1
    · simp [TimerManager.nextQuarter, h]
    · simp [TimerManager.nextQuarter, h]
      omega
  · intro cfg s h
    by_cases hlt : cfg.totalQuarters < s.currentQuarter + 1
    · simp [TimerManager.nextQuarter, hlt]
      omega
    · simp [TimerManager.nextQuarter, hlt]
      omega
  · intro cfg s
    simp [TimerManager.nextQuarter]

/-- Witness for C6 at n = 5, quarterLength 600. -/
theorem claim6_witness :
    ((TimerManager.nextQuarter ⟨600, 4, "g"⟩)^[5] (TimerManager.initState ⟨600, 4, "g"⟩)).status
        = GameStatus.finished ∧
    ((TimerManager.nextQuarter ⟨600, 4, "g"⟩)^[5]
        (TimerManager.initState ⟨600, 4, "g"⟩)).currentQuarter = 4 ∧
    (TimerManager.nextQuarter ⟨600, 4, "g"⟩ (TimerManager.initState ⟨600, 4, "g"⟩)).currentQuarter
        ≤ 4 :=
  ⟨(claim6_nextQuarter_bound.1 600 "g" 5 (by omega)).1,
   (claim6_nextQuarter_bound.1 600 "g" 5 (by omega)).2,
   claim6_nextQuarter_bound.2.2.1 ⟨600, 4, "g"⟩ (TimerManager.initState ⟨600, 4, "g"⟩)
     (by simp [TimerManager.initState])⟩

/-- C2 counterexample: with quarterLength 5, started at 0 and read at 6s,
the TimerManager reports `isExpired = true` and `getCurrentTime = 0`, but
— contrary to the claim — its state still has `isRunning = true` and
`status = 'live'`: no operation was invoked, so nothing stopped the clock. -/
theorem claim2_counterexample :
    TimerManager.isExpired (TimerManager.start (TimerManager.initState ⟨5, 4, "g"⟩) 0) 6000
        = true ∧
    TimerManager.getCurrentTime (TimerManager.start (TimerManager.initState ⟨5, 4, "g"⟩) 0) 6000
        = 0 ∧
    (TimerManager.start (TimerManager.initState ⟨5, 4, "g"⟩) 0).isRunning = true ∧
    (TimerManager.start (TimerManager.initState ⟨5, 4, "g"⟩) 0).status = GameStatus.live := by
  refine ⟨?_, ?_, ?_, ?_⟩ <;>
    norm_num [TimerManager.isExpired, TimerManager.getCurrentTime, TimerManager.start,
      TimerManager.initState, jsRound]

/-- C2 amended: after `start()` and 6s of wall clock with no operation,
`isExpired = true` and `getCurrentTime = 0`, but the TimerManager state
keeps `isRunning = true`, `status = 'live'`.  Expiry stops the clock only
in the legacy `GameStorage.calculateServerTime` read path, which maps a
running live game whose time has elapsed to `timeRemaining = 0`,
`isRunning = false`, `status = 'scheduled'`, clearing `timerStartedAt`. -/
theorem claim2_expiry_behaviour :
    TimerManager.isExpired (TimerManager.start (TimerManager.initState ⟨5, 4, "g"⟩) 0) 6000
        = true ∧
    TimerManager.getCurrentTime (TimerManager.start (TimerManager.initState ⟨5, 4, "g"⟩) 0) 6000
        = 0 ∧
    (TimerManager.start (TimerManager.initState ⟨5, 4, "g"⟩) 0).isRunning = true ∧
    (TimerManager.start (TimerManager.initState ⟨5, 4, "g"⟩) 0).status = GameStatus.live ∧
    (∀ (g : Game) (now u : ℚ), g.isRunning = true → g.timerStartedAt = some u →
      g.status = GameStatusV1.live → g.timeRemaining - (⌊(now - u) / 1000⌋ : ℤ) ≤ 0 →
      GameStorage.calculateServerTime g now
        = { g with timeRemaining := 0, lastServerTime := some 0, isRunning := false,
                   status := GameStatusV1.scheduled, timerStartedAt := none,
                   updatedAt := now }) := by
  refine ⟨?_, ?_, ?_, ?_, ?_⟩
  · norm_num [TimerManager.isExpired, TimerManager.getCurrentTime, TimerManager.start,
      TimerManager.initState, jsRound]
  · norm_num [TimerManager.getCurrentTime, TimerManager.start,
      TimerManager.initState, jsRound]
  · norm_num [TimerManager.start, TimerManager.initState]
  · norm_num [TimerManager.start, TimerManager.initState]
  · intro g now u hr hst hl hexp
    have hmax0 : max 0 (g.timeRemaining - (⌊(now - u) / 1000⌋ : ℤ)) = 0 :=
      le_antisymm (max_le le_rfl hexp) (le_max_left _ _)
    simp [GameStorage.calculateServerTime, hr, hst, hl, hmax0]

/-- Witness for C2's `calculateServerTime` expiry branch at a concrete game. -/
theorem claim2_witness :
    GameStorage.calculateServerTime
        { id := "g", teamA := "A", teamB := "B", scoreA := 0, scoreB := 0, currentQuarter := 1,
          timeRemaining := 5, quarterLength := 1, status := GameStatusV1.live,
          isRunning := true, timerStartedAt := some 0, lastServerTime := none,
          createdAt := 0, updatedAt := 0 } 6000
      = { id := "g", teamA := "A", teamB := "B", scoreA := 0, scoreB := 0, currentQuarter := 1,
          timeRemaining := 0, quarterLength := 1, status := GameStatusV1.scheduled,
          isRunning := false, timerStartedAt := none, lastServerTime := some 0,
          createdAt := 0, updatedAt := 6000 } :=
  claim2_expiry_behaviour.2.2.2.2 _ 6000 0 rfl rfl rfl (by norm_num)

/-- C3 counterexample: the state reached by four `nextQuarter()` calls is
reachable, has `status = 'finished'`, and yet `reset()` changes it (back to
`'scheduled'`) and `start()` changes it (to `'live'`, restarting the clock):
`'finished'` is not terminal. -/
theorem claim3_counterexample :
    Reachable ⟨600, 4, "g"⟩
      ((TimerManager.nextQuarter ⟨600, 4, "g"⟩)^[4] (TimerManager.initState ⟨600, 4, "g"⟩)) 0 ∧
    ((TimerManager.nextQuarter ⟨600, 4, "g"⟩)^[4]
      (TimerManager.initState ⟨600, 4, "g"⟩)).status = GameStatus.finished ∧
    TimerManager.reset
        ((TimerManager.nextQuarter ⟨600, 4, "g"⟩)^[4] (TimerManager.initState ⟨600, 4, "g"⟩))
      ≠ (TimerManager.nextQuarter ⟨600, 4, "g"⟩)^[4] (TimerManager.initState ⟨600, 4, "g"⟩) ∧
    (TimerManager.start
        ((TimerManager.nextQuarter ⟨600, 4, "g"⟩)^[4] (TimerManager.initState ⟨600, 4, "g"⟩)) 0)
      ≠ (TimerManager.nextQuarter ⟨600, 4, "g"⟩)^[4] (TimerManager.initState ⟨600, 4, "g"⟩) := by
  have h4 : (TimerManager.nextQuarter ⟨600, 4, "g"⟩)^[4] (TimerManager.initState ⟨600, 4, "g"⟩)
      = { isRunning := false, startedAt := none, pausedAt := none, totalPausedTime := 0,
          quarterLength := 600, currentQuarter := 4, gameId := "g",
          status := GameStatus.finished } := rfl
  refine ⟨?_, by rw [h4], ?_, ?_⟩
  · exact Reachable.step_next 0 (Reachable.step_next 0 (Reachable.step_next 0
      (Reachable.step_next 0 (Reachable.init 0) le_rfl) le_rfl) le_rfl) le_rfl
  · rw [h4]
    intro h
    have hreset : TimerManager.reset
        { isRunning := false, startedAt := none, pausedAt := none, totalPausedTime := 0,
          quarterLength := 600, currentQuarter := 4, gameId := "g",
          status := GameStatus.finished }
        = { isRunning := false, startedAt := none, pausedAt := none, totalPausedTime := 0,
            quarterLength := 600, currentQuarter := 4, gameId := "g",
            status := GameStatus.scheduled } := rfl
    rw [hreset] at h
    exact absurd (congrArg TimerState.status h) (by decide)
  · rw [h4]
    intro h
    have hstart : TimerManager.start
        { isRunning := false, startedAt := none, pausedAt := none, totalPausedTime := 0,
          quarterLength := 600, currentQuarter := 4, gameId := "g",
          status := GameStatus.finished } 0
        = { isRunning := true, startedAt := some 0, pausedAt := none, totalPausedTime := 0,
            quarterLength := 600, currentQuarter := 4, gameId := "g",
            status := GameStatus.live } := by
      norm_num [TimerManager.start]
    rw [hstart] at h
    exact absurd (congrArg TimerState.status h) (by decide)

/-- C3 amended: `'finished'` is not terminal.  On a canonical finished
state (all run fields cleared, quarter at the bound) `nextQuarter()` and
`pause()` are state no-ops, but `start()` moves it to `'live'` (the cleared
accumulator leaves a full quarter to run) and `reset()` moves it back to
`'scheduled'`; `sync()` can overwrite any field. -/
theorem claim3_finished_not_terminal :
    ∀ (cfg : TimerConfig) (s : TimerState) (t : ℚ),
      s.isRunning = false → s.startedAt = none → s.pausedAt = none →
      s.totalPausedTime = 0 → s.status = GameStatus.finished →
      cfg.totalQuarters ≤ s.currentQuarter → 0 < s.quarterLength →
      TimerManager.nextQuarter cfg s = s ∧
      TimerManager.pause s t = s ∧
      (TimerManager.start s t).status = GameStatus.live ∧
      TimerManager.start s t ≠ s ∧
      (TimerManager.reset s).status = GameStatus.scheduled ∧
      TimerManager.reset s ≠ s := by
  intro cfg s t h1 h2 h3 h4 h5 h6 h7
  obtain ⟨run, st, pa, tpt, qL, cq, gid, stat⟩ := s
  simp only at h1 h2 h3 h4 h5
  subst h1; subst h2; subst h3; subst h4; subst h5
  refine ⟨?_, ?_, ?_, ?_, ?_, ?_⟩
  · simp only [TimerManager.nextQuarter]
    simp only at h6
    simp [show cfg.totalQuarters < cq + 1 by omega]
  · rfl
  · simp only at h7
    simp [TimerManager.start, not_le.mpr h7]
  · simp only at h7
    simp [TimerManager.start, not_le.mpr h7]
  · rfl
  · simp [TimerManager.reset]

/-- Witness for C3 amended at the concrete finished state. -/
theorem claim3_witness :
    TimerManager.nextQuarter ⟨600, 4, "g"⟩
        { isRunning := false, startedAt := none, pausedAt := none, totalPausedTime := 0,
          quarterLength := 600, currentQuarter := 4, gameId := "g",
          status := GameStatus.finished }
      = { isRunning := false, startedAt := none, pausedAt := none, totalPausedTime := 0,
          quarterLength := 600, currentQuarter := 4, gameId := "g",
          status := GameStatus.finished } ∧
    (TimerManager.start
        { isRunning := false, startedAt := none, pausedAt := none, totalPausedTime := 0,
          quarterLength := 600, currentQuarter := 4, gameId := "g",
          status := GameStatus.finished } 0).status = GameStatus.live :=
  ⟨(claim3_finished_not_terminal ⟨600, 4, "g"⟩ _ 0 rfl rfl rfl rfl rfl (by norm_num)
      (by norm_num)).1,
   (claim3_finished_not_terminal ⟨600, 4, "g"⟩ _ 0 rfl rfl rfl rfl rfl (by norm_num)
      (by norm_num)).2.2.1⟩

/-- Auxiliary invariant for reachable states: the accumulator is
nonnegative and any recorded start instant is not in the future. -/
theorem reachable_invariant {cfg : TimerConfig} {s : TimerState} {t : ℚ}
    (h : Reachable cfg s t) :
    0 ≤ s.totalPausedTime ∧ ∀ u, s.startedAt = some u → u ≤ t := by
  induction h with
  | init t =>
    exact ⟨le_refl 0, fun u hu => Option.noConfusion hu⟩
  | step_start t' h ht ih =>
    rename_i s t
    obtain ⟨ih1, ih2⟩ := ih
    by_cases hb : s.isRunning
    · have hst : TimerManager.start s t' = s := by simp [TimerManager.start, hb]
      rw [hst]
      exact ⟨ih1, fun u hu => (ih2 u hu).trans ht⟩
    · by_cases hq : s.quarterLength - s.totalPausedTime ≤ 0
      · have hst : TimerManager.start s t' = s := by simp [TimerManager.start, hb, hq]
        rw [hst]
        exact ⟨ih1, fun u hu => (ih2 u hu).trans ht⟩
      · have hst : TimerManager.start s t'
            = { s with isRunning := true, startedAt := some t', pausedAt := none,
                       status := GameStatus.live } := by
          simp [TimerManager.start, hb, hq]
        rw [hst]
        exact ⟨ih1, fun u hu => (Option.some.inj hu).ge⟩
  | step_pause t' h ht ih =>
    rename_i s t
    obtain ⟨ih1, ih2⟩ := ih
    cases hb : s.isRunning
    · have hp : TimerManager.pause s t' = s := by simp [TimerManager.pause, hb]
      rw [hp]
      exact ⟨ih1, fun u hu => (ih2 u hu).trans ht⟩
    · cases ha : s.startedAt with
      | none =>
        have hp : TimerManager.pause s t' = s := by simp [TimerManager.pause, hb, ha]
        rw [hp]
        exact ⟨ih1, fun u hu => (ih2 u hu).trans ht⟩
      | some u0 =>
        have hp : TimerManager.pause s t'
            = { s with isRunning := false, pausedAt := some t',
                       totalPausedTime := s.totalPausedTime + (t' - u0) / 1000,
                       startedAt := none, status := GameStatus.scheduled } := by
          simp [TimerManager.pause, hb, ha]
        rw [hp]
        refine ⟨?_, fun u hu => Option.noConfusion hu⟩
        have hnonneg : (0 : ℚ) ≤ (t' - u0) / 1000 :=
          div_nonneg (sub_nonneg.mpr ((ih2 u0 ha).trans ht)) (by norm_num)
        exact add_nonneg ih1 hnonneg
  | step_next t' h ht ih =>
    exact ⟨le_refl 0, fun u hu => Option.noConfusion hu⟩
  | step_reset t' h ht ih =>
    exact ⟨le_refl 0, fun u hu => Option.noConfusion hu⟩

/-- C4 amended: in every reachable state (under monotone wall-clock input)
the accumulator `totalPausedTime` is nonnegative, and `getCurrentTime` is
clamped to ≥ 0 in every state; but `pause()` does not clamp the
accumulator, which can exceed `quarterLength` (see the counterexample). -/
theorem claim4_accumulator_bounds :
    (∀ (cfg : TimerConfig) (s : TimerState) (t : ℚ), Reachable cfg s t →
      0 ≤ s.totalPausedTime) ∧
    (∀ (s : TimerState) (now : ℚ), 0 ≤ TimerManager.getCurrentTime s now) := by
  constructor
  · exact fun cfg s t h => (reachable_invariant h).1
  · intro s now
    cases hb : s.isRunning <;> cases ha : s.startedAt <;>
      simp [TimerManager.getCurrentTime, hb, ha, le_max_left]

/-- Witness for C4 amended at the initial state. -/
theorem claim4_witness :
    0 ≤ (TimerManager.initState ⟨60, 4, "g"⟩).totalPausedTime ∧
    0 ≤ TimerManager.getCurrentTime (TimerManager.initState ⟨60, 4, "g"⟩) 0 :=
  ⟨claim4_accumulator_bounds.1 ⟨60, 4, "g"⟩ _ 0 (Reachable.init 0),
   claim4_accumulator_bounds.2 _ 0⟩

/-- C4 counterexample: quarterLength 60, `start()` at 0, `pause()` at 100s:
the resulting at-rest reachable state stores `totalPausedTime = 100`,
exceeding `quarterLength = 60` — `pause()` does not clamp the accumulator. -/
theorem claim4_counterexample :
    Reachable ⟨60, 4, "g"⟩
      (TimerManager.pause (TimerManager.start (TimerManager.initState ⟨60, 4, "g"⟩) 0) 100000)
      100000 ∧
    (TimerManager.pause (TimerManager.start (TimerManager.initState ⟨60, 4, "g"⟩) 0)
      100000).isRunning = false ∧
    (TimerManager.pause (TimerManager.start (TimerManager.initState ⟨60, 4, "g"⟩) 0)
      100000).totalPausedTime = 100 ∧
    (TimerManager.pause (TimerManager.start (TimerManager.initState ⟨60, 4, "g"⟩) 0)
      100000).quarterLength = 60 ∧
    (60 : ℚ) < 100 := by
  refine ⟨?_, ?_, ?_, ?_, by norm_num⟩
  · exact Reachable.step_pause 100000
      (Reachable.step_start 0 (Reachable.init 0) le_rfl) (by norm_num)
  · norm_num [TimerManager.pause, TimerManager.start, TimerManager.initState]
  · norm_num [TimerManager.pause, TimerManager.start, TimerManager.initState]
  · norm_num [TimerManager.pause, TimerManager.start, TimerManager.initState]

/-- `status = 'live' ⇔ isRunning` as a predicate on states. -/
def LiveIffRunning (s : TimerState) : Prop :=
  s.status = GameStatus.live ↔ s.isRunning = true

instance (s : TimerState) : Decidable (LiveIffRunning s) := by
  unfold LiveIffRunning
  infer_instance

/-- C5 amended: `live ⇔ isRunning` holds initially and is preserved by
`start`, `pause`, `nextQuarter` and `reset`; `syncWithState` preserves it
when the partial state carries neither `isRunning` nor `status`, or carries
both consistently — but not for arbitrary partial states (see the
counterexample). -/
theorem claim5_live_iff_running :
    (∀ cfg : TimerConfig, LiveIffRunning (TimerManager.initState cfg)) ∧
    (∀ (s : TimerState) (t : ℚ), LiveIffRunning s →
      LiveIffRunning (TimerManager.start s t)) ∧
    (∀ (s : TimerState) (t : ℚ), LiveIffRunning s →
      LiveIffRunning (TimerManager.pause s t)) ∧
    (∀ (cfg : TimerConfig) (s : TimerState), LiveIffRunning (TimerManager.nextQuarter cfg s)) ∧
    (∀ s : TimerState, LiveIffRunning (TimerManager.reset s)) ∧
    (∀ (s : TimerState) (p : PartialTimerState), p.isRunning = none → p.status = none →
      LiveIffRunning s → LiveIffRunning (TimerManager.syncWithState s p)) ∧
    (∀ (s : TimerState) (p : PartialTimerState) (b : Bool) (st : GameStatus),
      p.isRunning = some b → p.status = some st → (st = GameStatus.live ↔ b = true) →
      LiveIffRunning (TimerManager.syncWithState s p)) := by
  refine ⟨?_, ?_, ?_, ?_, ?_, ?_, ?_⟩
  · intro cfg
    simp [LiveIffRunning, TimerManager.initState]
  · intro s t hs
    by_cases hb : s.isRunning
    · simpa [TimerManager.start, hb] using hs
    · by_cases hq : s.quarterLength - s.totalPausedTime ≤ 0
      · simpa [TimerManager.start, hb, hq] using hs
      · simp [LiveIffRunning, TimerManager.start, hb, hq]
  · intro s t hs
    cases hb : s.isRunning
    · simpa [TimerManager.pause, hb] using hs
    · cases ha : s.startedAt
      · simpa [TimerManager.pause, hb, ha] using hs
      · simp [LiveIffRunning, TimerManager.pause, hb, ha]
  · intro cfg s
    by_cases h : cfg.totalQuarters < s.currentQuarter + 1 <;>
      simp [LiveIffRunning, TimerManager.nextQuarter, h]
  · intro s
    simp [LiveIffRunning, TimerManager.reset]
  · intro s p h1 h2 hs
    simpa [LiveIffRunning, TimerManager.syncWithState, h1, h2] using hs
  · intro s p b st h1 h2 hc
    simpa [LiveIffRunning, TimerManager.syncWithState, h1, h2] using hc

/-- Witness for C5 amended at concrete states. -/
theorem claim5_witness :
    LiveIffRunning (TimerManager.initState ⟨60, 4, "g"⟩) ∧
    LiveIffRunning (TimerManager.start (TimerManager.initState ⟨60, 4, "g"⟩) 0) ∧
    LiveIffRunning (TimerManager.syncWithState (TimerManager.initState ⟨60, 4, "g"⟩)
      { isRunning := some true, status := some GameStatus.live }) :=
  ⟨claim5_live_iff_running.1 ⟨60, 4, "g"⟩,
   claim5_live_iff_running.2.1 _ 0 (claim5_live_iff_running.1 ⟨60, 4, "g"⟩),
   claim5_live_iff_running.2.2.2.2.2.2 _ _ true GameStatus.live rfl rfl (by simp)⟩

/-- C5 counterexample: syncing `{ isRunning: true }` alone into the initial
state yields `isRunning = true` with `status = 'scheduled'`: `sync()` with
an arbitrary partial state does not preserve the equivalence. -/
theorem claim5_counterexample :
    LiveIffRunning (TimerManager.initState ⟨60, 4, "g"⟩) ∧
    ¬ LiveIffRunning (TimerManager.syncWithState (TimerManager.initState ⟨60, 4, "g"⟩)
        { isRunning := some true }) := by
  constructor
  · simp [LiveIffRunning, TimerManager.initState]
  · simp [LiveIffRunning, TimerManager.syncWithState, TimerManager.initState]

/-- C9 amended: the legacy loader follows the four tiers — fresh cache,
durable file (repopulating the cache), stale cache on a failed or missing
file, empty.  The V2 loaders follow only tiers 1, 2 and 4: when the cache
is not fresh and the durable read fails or finds nothing they return empty
and overwrite the cache, never consulting the stale cache. -/
theorem claim9_read_tiers :
    (∀ {α : Type} (now : ℤ) (s : StorageState α) (cached : List α) (ts : ℤ),
      s.cache = some cached → s.cacheTimestamp = some ts → now - ts < CACHE_TIMEOUT →
      GameStorageV1.loadGamesFromStorage now s = (cached, s) ∧
      GameStorageV2.loadGamesFromStorage now s = (cached, s)) ∧
    (∀ {α : Type} (now : ℤ) (s : StorageState α) (data : List α),
      (∀ cached ts, s.cache = some cached → s.cacheTimestamp = some ts →
        CACHE_TIMEOUT ≤ now - ts) →
      s.file = FileState.content data →
      GameStorageV1.loadGamesFromStorage now s
          = (data, { s with cache := some data, cacheTimestamp := some now }) ∧
      GameStorageV2.loadGamesFromStorage now s
          = (data, { s with cache := some data, cacheTimestamp := some now })) ∧
    (∀ {α : Type} (now : ℤ) (s : StorageState α) (cached : List α),
      (∀ cached' ts, s.cache = some cached' → s.cacheTimestamp = some ts →
        CACHE_TIMEOUT ≤ now - ts) →
      (s.file = FileState.missing ∨ s.file = FileState.error) →
      s.cache = some cached →
      GameStorageV1.loadGamesFromStorage now s = (cached, s) ∧
      GameStorageV2.loadGamesFromStorage now s
          = ([], { s with cache := some [], cacheTimestamp := some now })) ∧
    (∀ {α : Type} (now : ℤ) (s : StorageState α),
      (s.file = FileState.missing ∨ s.file = FileState.error) →
      s.cache = none →
      GameStorageV1.loadGamesFromStorage now s = ([], s) ∧
      GameStorageV2.loadGamesFromStorage now s
          = ([], { s with cache := some [], cacheTimestamp := some now })) := by
  refine ⟨?_, ?_, ?_, ?_⟩
  · intro α now s cached ts hc hts hfresh
    constructor
    · simp [GameStorageV1.loadGamesFromStorage, hc, hts, hfresh]
    · simp [GameStorageV2.loadGamesFromStorage, hc, hts, hfresh]
  · intro α now s data hstale hfile
    constructor
    · cases hc : s.cache with
      | none => simp [GameStorageV1.loadGamesFromStorage, hc, hfile]
      | some cached =>
        cases hts : s.cacheTimestamp with
        | none => simp [GameStorageV1.loadGamesFromStorage, hc, hts, hfile]
        | some ts =>
          have := hstale cached ts hc hts
          simp [GameStorageV1.loadGamesFromStorage, hc, hts, hfile, not_lt.mpr this]
    · cases hc : s.cache with
      | none => simp [GameStorageV2.loadGamesFromStorage, GameStorageV2.loadFromFile, hc, hfile]
      | some cached =>
        cases hts : s.cacheTimestamp with
        | none => simp [GameStorageV2.loadGamesFromStorage, GameStorageV2.loadFromFile,
            hc, hts, hfile]
        | some ts =>
          have := hstale cached ts hc hts
          simp [GameStorageV2.loadGamesFromStorage, GameStorageV2.loadFromFile,
            hc, hts, hfile, not_lt.mpr this]
  · intro α now s cached hstale hfail hc
    cases hts : s.cacheTimestamp with
    | none =>
      rcases hfail with hfile | hfile <;>
        exact ⟨by simp [GameStorageV1.loadGamesFromStorage, hc, hts, hfile],
               by simp [GameStorageV2.loadGamesFromStorage, GameStorageV2.loadFromFile,
                 hc, hts, hfile]⟩
    | some ts =>
      have hns := not_lt.mpr (hstale cached ts hc hts)
      rcases hfail with hfile | hfile <;>
        exact ⟨by simp [GameStorageV1.loadGamesFromStorage, hc, hts, hfile, hns],
               by simp [GameStorageV2.loadGamesFromStorage, GameStorageV2.loadFromFile,
                 hc, hts, hfile, hns]⟩
  · intro α now s hfail hc
    rcases hfail with hfile | hfile <;>
      exact ⟨by simp [GameStorageV1.loadGamesFromStorage, hc, hfile],
             by simp [GameStorageV2.loadGamesFromStorage, GameStorageV2.loadFromFile,
               hc, hfile]⟩

/-- Witness for C9 amended: a stale cache `[1]` with a failing file read —
the legacy loader returns the stale cache, V2 returns empty. -/
theorem claim9_witness :
    GameStorageV1.loadGamesFromStorage 300000
        ({ cache := some [1], cacheTimestamp := some 0, file := FileState.error,
           writable := true } : StorageState ℕ)
      = ([1], { cache := some [1], cacheTimestamp := some 0, file := FileState.error,
                writable := true }) ∧
    GameStorageV2.loadGamesFromStorage 300000
        ({ cache := some [1], cacheTimestamp := some 0, file := FileState.error,
           writable := true } : StorageState ℕ)
      = ([], { cache := some [], cacheTimestamp := some 300000, file := FileState.error,
               writable := true }) :=
  claim9_read_tiers.2.2.1 300000
    ({ cache := some [1], cacheTimestamp := some 0, file := FileState.error,
       writable := true } : StorageState ℕ) [1]
    (by intro c ts hc hts; simp at hc hts; simp [CACHE_TIMEOUT, hts])
    (Or.inr rfl) rfl

/-- C9 counterexample: the V2 loader, with a stale cache `[1]` and a failing
durable read, returns `[]` and overwrites the cache with `[]` instead of
falling back to the stale cache — tier 3 of the claimed read path does not
exist in the V2 storage. -/
theorem claim9_counterexample :
    (GameStorageV2.loadGamesFromStorage 300000
        ({ cache := some [1], cacheTimestamp := some 0, file := FileState.error,
           writable := true } : StorageState ℕ)).1 = [] ∧
    (GameStorageV2.loadGamesFromStorage 300000
        ({ cache := some [1], cacheTimestamp := some 0, file := FileState.error,
           writable := true } : StorageState ℕ)).2.cache = some [] ∧
    ([] : List ℕ) ≠ [1] := by
  refine ⟨?_, ?_, by simp⟩ <;>
    norm_num [GameStorageV2.loadGamesFromStorage, GameStorageV2.loadFromFile, CACHE_TIMEOUT]

/-- C10: every V2 write updates the process cache synchronously and then
attempts the durable write; a durable-write failure (`writeFileSync` in a
non-writable environment) is caught, the operation still returns a state —
no error escapes — and the cache keeps the newly written value while the
durable file is left as it was. -/
theorem claim10_write_path :
    ∀ {α : Type} (now : ℤ) (s : StorageState α) (games : List α),
      (GameStorageV2.saveGamesToStorage now s games).cache = some games ∧
      (GameStorageV2.saveGamesToStorage now s games).cacheTimestamp = some now ∧
      (s.writable = false →
        GameStorageV2.writeFileSync
            ({ s with cache := some games, cacheTimestamp := some now } : StorageState α) games
          = Except.error () ∧
        (GameStorageV2.saveGamesToStorage now s games).file = s.file) ∧
      (s.writable = true →
        (GameStorageV2.saveGamesToStorage now s games).file = FileState.content games) := by
  intro α now s games
  by_cases hw : s.writable
  · refine ⟨?_, ?_, fun h => absurd hw (by simp [h]), fun _ => ?_⟩ <;>
      simp [GameStorageV2.saveGamesToStorage, GameStorageV2.saveToFile,
        GameStorageV2.writeFileSync, hw]
  · refine ⟨?_, ?_, fun _ => ⟨?_, ?_⟩, fun h => absurd h hw⟩ <;>
      simp [GameStorageV2.saveGamesToStorage, GameStorageV2.saveToFile,
        GameStorageV2.writeFileSync, hw]

/-- Witness for C10 on a non-writable file system. -/
theorem claim10_witness :
    (GameStorageV2.saveGamesToStorage 7
        ({ cache := none, cacheTimestamp := none, file := FileState.missing,
           writable := false } : StorageState ℕ) [3]).cache = some [3] ∧
    (GameStorageV2.saveGamesToStorage 7
        ({ cache := none, cacheTimestamp := none, file := FileState.missing,
           writable := false } : StorageState ℕ) [3]).file = FileState.missing :=
  ⟨(claim10_write_path 7 _ [3]).1,
   ((claim10_write_path 7
      ({ cache := none, cacheTimestamp := none, file := FileState.missing,
         writable := false } : StorageState ℕ) [3]).2.2.1 rfl).2⟩

namespace TimerService

theorem not_mem_stale_of_mem_afterTTL {τ : Type} {now : ℤ} {r : Registry τ}
    {β : Type} {l : List (String × β)} {p : String × β}
    (hp : p ∈ l.filter fun q => !(staleTimers now r).contains q.1) :
    p.1 ∉ staleTimers now r := by
  have h := (List.mem_filter.mp hp).2
  simpa using h

theorem afterTTL_fresh {τ : Type} {now : ℤ} {r : Registry τ} {k : String} {t : ℤ}
    (hk : k ∈ (afterTTL now r).timers.map Prod.fst)
    (ht : (k, t) ∈ r.lastAccessed) : now - t ≤ TIMER_TTL := by
  rcases List.mem_map.mp hk with ⟨p, hp, rfl⟩
  have hns := not_mem_stale_of_mem_afterTTL (r := r) hp
  by_contra hgt
  refine hns (List.mem_map.mpr ⟨(p.1, t), List.mem_filter.mpr ⟨ht, ?_⟩, rfl⟩)
  simp only [decide_eq_true_eq]
  omega

theorem perform_timers_subset {τ : Type} (now : ℤ) (r : Registry τ) :
    (performAutomaticCleanup now r).timers ⊆ (afterTTL now r).timers := by
  unfold performAutomaticCleanup
  split
  · exact (List.filter_sublist _).subset
  · exact fun a ha => ha

end TimerService

namespace TimerService

theorem lru_order {τ : Type} {now : ℤ} {r : Registry τ}
    (hndl : ((afterTTL now r).lastAccessed.map Prod.fst).Nodup)
    {q p : String × ℤ}
    (hq : q ∈ (afterTTL now r).lastAccessed) (hqe : q.1 ∈ capEvicted now r)
    (hp : p ∈ (afterTTL now r).lastAccessed) (hpe : p.1 ∉ capEvicted now r) :
    q.2 ≤ p.2 := by
  have hperm := List.perm_insertionSort accessLe (afterTTL now r).lastAccessed
  rcases List.mem_map.mp hqe with ⟨q', hq', hqq'⟩
  have hq'mem : q' ∈ (afterTTL now r).lastAccessed :=
    hperm.subset (List.mem_of_mem_take hq')
  have hq'q : q' = q := List.inj_on_of_nodup_map hndl hq'mem hq hqq'
  subst hq'q
  have hpsorted : p ∈ List.insertionSort accessLe (afterTTL now r).lastAccessed :=
    hperm.symm.subset hp
  rw [← List.take_append_drop
    ((afterTTL now r).timers.length - MAX_TIMER_INSTANCES)
    (List.insertionSort accessLe (afterTTL now r).lastAccessed)] at hpsorted
  rcases List.mem_append.mp hpsorted with hpt | hpd
  · exact absurd (List.mem_map.mpr ⟨p, hpt, rfl⟩) hpe
  · have hsort : List.Sorted accessLe
        (List.insertionSort accessLe (afterTTL now r).lastAccessed) :=
      List.sorted_insertionSort accessLe _
    have hpw := List.pairwise_append.mp (by
      rwa [List.take_append_drop
        ((afterTTL now r).timers.length - MAX_TIMER_INSTANCES)
        (List.insertionSort accessLe (afterTTL now r).lastAccessed)])
    exact hpw.2.2 q' hq' p hpd

end TimerService

namespace TimerService

theorem length_le_of_nodup_subset {α : Type} {l₁ l₂ : List α}
    (h1 : l₁.Nodup) (hsub : l₁ ⊆ l₂) : l₁.length ≤ l₂.length :=
  (List.subperm_of_subset h1 hsub).length_le

theorem nodup_keys_filter {β : Type} {l : List (String × β)} (f : String × β → Bool)
    (h : (l.map Prod.fst).Nodup) : ((l.filter f).map Prod.fst).Nodup :=
  List.Nodup.sublist ((List.filter_sublist l).map Prod.fst) h

theorem keys_afterTTL_timers_subset {τ : Type} (now : ℤ) (r : Registry τ)
    (hkeys : ∀ k, k ∈ r.timers.map Prod.fst ↔ k ∈ r.lastAccessed.map Prod.fst) :
    (afterTTL now r).timers.map Prod.fst ⊆ (afterTTL now r).lastAccessed.map Prod.fst := by
  intro k hk
  rcases List.mem_map.mp hk with ⟨p, hp, rfl⟩
  rcases List.mem_filter.mp hp with ⟨hpmem, hpf⟩
  have hkl : p.1 ∈ r.lastAccessed.map Prod.fst :=
    (hkeys p.1).mp (List.mem_map.mpr ⟨p, hpmem, rfl⟩)
  rcases List.mem_map.mp hkl with ⟨q, hqmem, hq1⟩
  refine List.mem_map.mpr ⟨q, List.mem_filter.mpr ⟨hqmem, ?_⟩, hq1⟩
  rw [hq1]
  exact hpf

theorem keys_afterTTL_last_subset {τ : Type} (now : ℤ) (r : Registry τ)
    (hkeys : ∀ k, k ∈ r.timers.map Prod.fst ↔ k ∈ r.lastAccessed.map Prod.fst) :
    (afterTTL now r).lastAccessed.map Prod.fst ⊆ (afterTTL now r).timers.map Prod.fst := by
  intro k hk
  rcases List.mem_map.mp hk with ⟨p, hp, rfl⟩
  rcases List.mem_filter.mp hp with ⟨hpmem, hpf⟩
  have hkl : p.1 ∈ r.timers.map Prod.fst :=
    (hkeys p.1).mpr (List.mem_map.mpr ⟨p, hpmem, rfl⟩)
  rcases List.mem_map.mp hkl with ⟨q, hqmem, hq1⟩
  refine List.mem_map.mpr ⟨q, List.mem_filter.mpr ⟨hqmem, ?_⟩, hq1⟩
  rw [hq1]
  exact hpf

theorem capEvicted_nodup {τ : Type} (now : ℤ) (r : Registry τ)
    (hndl : (r.lastAccessed.map Prod.fst).Nodup) : (capEvicted now r).Nodup := by
  unfold capEvicted
  have hndL : ((afterTTL now r).lastAccessed.map Prod.fst).Nodup := nodup_keys_filter _ hndl
  have hperm := List.perm_insertionSort accessLe (afterTTL now r).lastAccessed
  have hndsorted :
      ((List.insertionSort accessLe (afterTTL now r).lastAccessed).map Prod.fst).Nodup :=
    ((hperm.map Prod.fst).nodup_iff).mpr hndL
  exact List.Nodup.sublist
    ((List.take_sublist ((afterTTL now r).timers.length - MAX_TIMER_INSTANCES) _).map Prod.fst)
    hndsorted

theorem capEvicted_subset_keys {τ : Type} (now : ℤ) (r : Registry τ)
    (hkeys : ∀ k, k ∈ r.timers.map Prod.fst ↔ k ∈ r.lastAccessed.map Prod.fst) :
    capEvicted now r ⊆ (afterTTL now r).timers.map Prod.fst := by
  intro e he
  unfold capEvicted at he
  rcases List.mem_map.mp he with ⟨q, hq, rfl⟩
  have hqL : q ∈ (afterTTL now r).lastAccessed :=
    (List.perm_insertionSort accessLe _).subset (List.mem_of_mem_take hq)
  exact keys_afterTTL_last_subset now r hkeys (List.mem_map.mpr ⟨q, hqL, rfl⟩)

theorem capEvicted_length {τ : Type} (now : ℤ) (r : Registry τ) :
    (capEvicted now r).length
      = min ((afterTTL now r).timers.length - MAX_TIMER_INSTANCES)
          (afterTTL now r).lastAccessed.length := by
  unfold capEvicted
  rw [List.length_map, List.length_take,
    (List.perm_insertionSort accessLe (afterTTL now r).lastAccessed).length_eq]

theorem afterTTL_timers_length_le {τ : Type} (now : ℤ) (r : Registry τ)
    (hndt : (r.timers.map Prod.fst).Nodup)
    (hkeys : ∀ k, k ∈ r.timers.map Prod.fst ↔ k ∈ r.lastAccessed.map Prod.fst) :
    (afterTTL now r).timers.length ≤ (afterTTL now r).lastAccessed.length := by
  have h := length_le_of_nodup_subset (nodup_keys_filter _ hndt)
    (keys_afterTTL_timers_subset now r hkeys)
  rw [List.length_map, List.length_map] at h
  exact h

theorem perform_timers_length_le {τ : Type} (now : ℤ) (r : Registry τ)
    (hndl : (r.lastAccessed.map Prod.fst).Nodup)
    (hndt : (r.timers.map Prod.fst).Nodup)
    (hkeys : ∀ k, k ∈ r.timers.map Prod.fst ↔ k ∈ r.lastAccessed.map Prod.fst) :
    (performAutomaticCleanup now r).timers.length ≤ MAX_TIMER_INSTANCES := by
  by_cases h : MAX_TIMER_INSTANCES < (afterTTL now r).timers.length
  · unfold performAutomaticCleanup
    rw [if_pos h]
    show ((afterTTL now r).timers.filter fun p => !(capEvicted now r).contains p.1).length
      ≤ MAX_TIMER_INSTANCES
    have hsplit := @List.length_eq_length_filter_add _ (afterTTL now r).timers
      (fun p => (capEvicted now r).contains p.1)
    have hbridge :
        ((afterTTL now r).timers.filter
          fun x => !(fun p => (capEvicted now r).contains p.1) x)
          = (afterTTL now r).timers.filter fun p => !(capEvicted now r).contains p.1 := rfl
    rw [hbridge] at hsplit
    have hmapeq :
        ((afterTTL now r).timers.map Prod.fst).filter (fun a => (capEvicted now r).contains a)
          = ((afterTTL now r).timers.filter
              fun p => (capEvicted now r).contains p.1).map Prod.fst :=
      List.filter_map Prod.fst (afterTTL now r).timers
    have hsub2 : capEvicted now r
        ⊆ ((afterTTL now r).timers.map Prod.fst).filter
            fun a => (capEvicted now r).contains a := by
      intro e he
      refine List.mem_filter.mpr ⟨capEvicted_subset_keys now r hkeys he, ?_⟩
      simpa using he
    have hremoved := length_le_of_nodup_subset (capEvicted_nodup now r hndl) hsub2
    rw [hmapeq, List.length_map] at hremoved
    have hev := capEvicted_length now r
    have hTlenL := afterTTL_timers_length_le now r hndt hkeys
    omega
  · unfold performAutomaticCleanup
    rw [if_neg h]
    omega

end TimerService

/-- C8 amended: when the two registry maps hold exactly the same keys (as
the service maintains except after `deleteGame`, which removes only the
timer), a sweep leaves no timer whose last access is older than the TTL,
leaves at most `MAX_TIMER_INSTANCES` timers, and cap-evicts in
least-recently-accessed-first order. -/
theorem claim8_eviction_sweep :
    ∀ {τ : Type} (now : ℤ) (r : TimerService.Registry τ),
      (r.lastAccessed.map Prod.fst).Nodup →
      (r.timers.map Prod.fst).Nodup →
      (∀ k, k ∈ r.timers.map Prod.fst ↔ k ∈ r.lastAccessed.map Prod.fst) →
      (∀ (k : String) (t : ℤ),
        k ∈ (TimerService.performAutomaticCleanup now r).timers.map Prod.fst →
        (k, t) ∈ r.lastAccessed → now - t ≤ TimerService.TIMER_TTL) ∧
      (TimerService.performAutomaticCleanup now r).timers.length
        ≤ TimerService.MAX_TIMER_INSTANCES ∧
      (∀ q ∈ r.lastAccessed, now - q.2 ≤ TimerService.TIMER_TTL →
        q.1 ∉ (TimerService.performAutomaticCleanup now r).lastAccessed.map Prod.fst →
        ∀ p ∈ (TimerService.performAutomaticCleanup now r).lastAccessed, q.2 ≤ p.2) := by
  intro τ now r hndl hndt hkeys
  refine ⟨?_, TimerService.perform_timers_length_le now r hndl hndt hkeys, ?_⟩
  · intro k t hk ht
    rcases List.mem_map.mp hk with ⟨p, hp, rfl⟩
    exact TimerService.afterTTL_fresh
      (List.mem_map.mpr ⟨p, TimerService.perform_timers_subset now r hp, rfl⟩) ht
  · intro q hq hfresh hnot p hp
    have hqstale : q.1 ∉ TimerService.staleTimers now r := by
      intro hcon
      rcases List.mem_map.mp hcon with ⟨q', hq', hq'1⟩
      have hq'mem : q' ∈ r.lastAccessed := (List.mem_filter.mp hq').1
      have hq'cond := (List.mem_filter.mp hq').2
      have heq : q' = q := List.inj_on_of_nodup_map hndl hq'mem hq hq'1
      subst heq
      simp only [decide_eq_true_eq] at hq'cond
      omega
    have hqTTL : q ∈ (TimerService.afterTTL now r).lastAccessed :=
      List.mem_filter.mpr ⟨hq, by simpa using hqstale⟩
    by_cases hcap :
        TimerService.MAX_TIMER_INSTANCES < (TimerService.afterTTL now r).timers.length
    · have hperf : (TimerService.performAutomaticCleanup now r).lastAccessed
          = (TimerService.afterTTL now r).lastAccessed.filter
              fun p => !(TimerService.capEvicted now r).contains p.1 := by
        unfold TimerService.performAutomaticCleanup
        rw [if_pos hcap]
      rw [hperf] at hnot hp
      have hqe : q.1 ∈ TimerService.capEvicted now r := by
        by_contra hqe
        exact hnot
          (List.mem_map.mpr ⟨q, List.mem_filter.mpr ⟨hqTTL, by simpa using hqe⟩, rfl⟩)
      rcases List.mem_filter.mp hp with ⟨hpmem, hpcond⟩
      have hpe : p.1 ∉ TimerService.capEvicted now r := by simpa using hpcond
      exact TimerService.lru_order (TimerService.nodup_keys_filter _ hndl) hqTTL hqe hpmem hpe
    · have hperf : (TimerService.performAutomaticCleanup now r).lastAccessed
          = (TimerService.afterTTL now r).lastAccessed := by
        unfold TimerService.performAutomaticCleanup
        rw [if_neg hcap]
      rw [hperf] at hnot
      exact absurd (List.mem_map.mpr ⟨q, hqTTL, rfl⟩) hnot

/-- Witness for C8 amended: a two-timer registry whose entry "a" is older
than the TTL at the sweep instant. -/
theorem claim8_witness :
    (∀ (k : String) (t : ℤ),
      k ∈ (TimerService.performAutomaticCleanup 8000000
        ({ timers := [("a", ()), ("b", ())],
           lastAccessed := [("a", 0), ("b", 7000000)] } :
          TimerService.Registry Unit)).timers.map Prod.fst →
      (k, t) ∈ [("a", (0 : ℤ)), ("b", 7000000)] → 8000000 - t ≤ TimerService.TIMER_TTL) ∧
    (TimerService.performAutomaticCleanup 8000000
      ({ timers := [("a", ()), ("b", ())],
         lastAccessed := [("a", 0), ("b", 7000000)] } :
        TimerService.Registry Unit)).timers.length ≤ TimerService.MAX_TIMER_INSTANCES ∧
    (∀ q ∈ [("a", (0 : ℤ)), ("b", 7000000)], 8000000 - q.2 ≤ TimerService.TIMER_TTL →
      q.1 ∉ (TimerService.performAutomaticCleanup 8000000
        ({ timers := [("a", ()), ("b", ())],
           lastAccessed := [("a", 0), ("b", 7000000)] } :
          TimerService.Registry Unit)).lastAccessed.map Prod.fst →
      ∀ p ∈ (TimerService.performAutomaticCleanup 8000000
        ({ timers := [("a", ()), ("b", ())],
           lastAccessed := [("a", 0), ("b", 7000000)] } :
          TimerService.Registry Unit)).lastAccessed, q.2 ≤ p.2) :=
  claim8_eviction_sweep 8000000
    ({ timers := [("a", ()), ("b", ())],
       lastAccessed := [("a", 0), ("b", 7000000)] } : TimerService.Registry Unit)
    (by decide) (by decide) (fun k => Iff.rfl)

/-- The registry state after creating 101 games and deleting a previously
created one: `deleteGame` removes the timer but leaves its `lastAccessed`
entry ("ghost"), which is the oldest. -/
def ghostRegistry : TimerService.Registry Unit where
  timers := (List.range 101).map fun i => (toString i, ())
  lastAccessed := ("ghost", 0) :: (List.range 101).map fun i => (toString i, 1000)

set_option maxRecDepth 10000

/-- C8 counterexample: on `ghostRegistry` — a state with valid map keys and
every key of `timers` tracked in `lastAccessed` — the sweep at `now = 1000`
(nothing TTL-stale) spends its single cap eviction on the ghost key and
leaves 101 > 100 live timers: the sweep does not enforce the cap. -/
theorem claim8_counterexample :
    (ghostRegistry.timers.map Prod.fst).Nodup ∧
    (ghostRegistry.lastAccessed.map Prod.fst).Nodup ∧
    (∀ k ∈ ghostRegistry.timers.map Prod.fst, k ∈ ghostRegistry.lastAccessed.map Prod.fst) ∧
    (TimerService.performAutomaticCleanup 1000 ghostRegistry).timers.length = 101 ∧
    TimerService.MAX_TIMER_INSTANCES < 101 := by
  refine ⟨by decide, by decide, by decide, by decide, by decide⟩
